import Mathlib

/-!
Verification development for the sedori-auto batch price-update scripts.

The Python sources are shallowly embedded: the regex-based price
extractors become executable functions on lists of characters, the
retrying HTTP loops become recursions over a response oracle, and
`run_update` becomes a state-passing function producing the final
progress record, the list of spreadsheet writes, the list of persisted
progress checkpoints and the per-item progress trace.
-/

namespace SedoriAuto

/-! ### Character classes used by the Python regexes -/

/-- Character class `[0-9,]` (equivalently `[\d,]` on the ASCII inputs the
scrapers deal in). -/
def isDigitComma (c : Char) : Bool := c.isDigit || c = ','

/-- Python `\s` on `str`: the ASCII whitespace class plus the ideographic
space, the only non-ASCII whitespace relevant to these pages. -/
def isPySpace (c : Char) : Bool :=
  c = ' ' || c = '\t' || c = '\n' || c = '\r' || c = '\x0b' || c = '\x0c' || c = '　'

/-- Word character for `\b` boundaries: `[A-Za-z0-9_]`. -/
def isWordChar (c : Char) : Bool := c.isAlphanum || c = '_'

/-- Value of a decimal digit character list read most-significant first,
as `int(...)` reads it. -/
def digitsToNat (ds : List Char) : Nat :=
  ds.foldl (fun a c => 10 * a + (c.toNat - 48)) 0

/-- Strips a literal character sequence from the front, returning the
remainder when the literal is present. -/
def stripLit : List Char → List Char → Option (List Char)
  | [], cs => some cs
  | _ :: _, [] => none
  | k :: ks, c :: cs => if c = k then stripLit ks cs else none

/-- Does `needle` occur at the head of the haystack? -/
def beginsWith : List Char → List Char → Bool
  | [], _ => true
  | _ :: _, [] => false
  | n :: ns, h :: hs => n = h && beginsWith ns hs

/-- Substring containment, as Python `needle in s`. -/
def containsSub (needle : List Char) : List Char → Bool
  | [] => needle.isEmpty
  | c :: cs => beginsWith needle (c :: cs) || containsSub needle cs

/-- Leftmost-match search: try the anchored matcher at every position from
the left, as `re.search` does. -/
def reSearch {α : Type} (matchAt : List Char → Option α) : List Char → Option α
  | [] => matchAt []
  | c :: cs =>
    match matchAt (c :: cs) with
    | some r => some r
    | none => reSearch matchAt cs

/-! ### `MorimoriPCSystem.parse_search_results`

Four patterns are tried in order; a match whose whole text contains 上限
or ～ is skipped, the captured group is comma-stripped and converted with
`int`, and only a strictly positive price is returned. -/

/-- Matches the regex tail `([0-9,]+)円` at the head of the input: a greedy
nonempty run of `[0-9,]` followed by the yen character. Backtracking cannot
produce any other match here because no shorter run is followed by `円`.
Returns the captured run and the remainder. -/
def digitsYen (cs : List Char) : Option (List Char × List Char) :=
  let ds := cs.takeWhile isDigitComma
  if ds.isEmpty then none
  else
    match cs.drop ds.length with
    | '円' :: rest => some (ds, rest)
    | _ => none

/-- Tail of pattern 2, `[^(]*?([0-9,]+)円`: the lazy scan stops at the first
position (over non-`(` characters) where `([0-9,]+)円` matches. Returns the
skipped middle, the captured group, and the remainder. -/
def lazyYenScan : List Char → Option (List Char × List Char × List Char)
  | [] => none
  | c :: cs2 =>
    match digitsYen (c :: cs2) with
    | some (ds, rest) => some ([], ds, rest)
    | none =>
      if c = '(' then none
      else
        match lazyYenScan cs2 with
        | some (mid, ds, rest) => some (c :: mid, ds, rest)
        | none => none

/-- Anchored match for pattern 1, `通常買取価格:\s*\n?\s*([0-9,]+)円` (note the
ASCII colon in the literal). `\s*\n?\s*` accepts exactly the whitespace runs.
Returns (whole match, captured group). -/
def matchP1At (cs : List Char) : Option (List Char × List Char) :=
  match stripLit "通常買取価格:".data cs with
  | none => none
  | some rest =>
    let sp := rest.takeWhile isPySpace
    match digitsYen (rest.dropWhile isPySpace) with
    | some (ds, _) => some ("通常買取価格:".data ++ sp ++ ds ++ ['円'], ds)
    | none => none

/-- Anchored match for pattern 2, `通常買取価格[^(]*?([0-9,]+)円`. -/
def matchP2At (cs : List Char) : Option (List Char × List Char) :=
  match stripLit "通常買取価格".data cs with
  | none => none
  | some rest =>
    match lazyYenScan rest with
    | some (mid, ds, _) => some ("通常買取価格".data ++ mid ++ ds ++ ['円'], ds)
    | none => none

/-- Anchored match for patterns 3 and 4, `kw[：:]\s*([0-9,]+)円` with
`kw` the literal 買取価格 or 価格. -/
def matchColonAt (kw : List Char) (cs : List Char) : Option (List Char × List Char) :=
  match stripLit kw cs with
  | none => none
  | some rest =>
    match rest with
    | [] => none
    | c :: rest1 =>
      if c = '：' || c = ':' then
        let sp := rest1.takeWhile isPySpace
        match digitsYen (rest1.dropWhile isPySpace) with
        | some (ds, _) => some (kw ++ c :: (sp ++ ds ++ ['円']), ds)
        | none => none
      else none

/-- Conversion of a captured `[0-9,]+` group as `int(g.replace(',', ''))`
performs it: `none` models the `ValueError` raised when the group consists
of commas only. -/
def pyIntOfGroup (ds : List Char) : Option Nat :=
  let digs := ds.filter (fun c => c ≠ ',')
  if digs.isEmpty then none else some (digitsToNat digs)

/-- One iteration of the pattern loop in `parse_search_results`.
`none`: the pattern produced nothing usable, continue with the next pattern
(no match, a 上限/～ match, or a zero price). `some none`: `int` raised, the
enclosing `try` returns `None` for the whole call. `some (some p)`: a
positive price `p` is returned. -/
def tryPattern (matchAt : List Char → Option (List Char × List Char))
    (html : List Char) : Option (Option Nat) :=
  match reSearch matchAt html with
  | none => none
  | some (g0, g1) =>
    if containsSub "上限".data g0 || containsSub "～".data g0 then none
    else
      match pyIntOfGroup g1 with
      | none => some none
      | some p => if 0 < p then some (some p) else none

/-- Model of `MorimoriPCSystem.parse_search_results`: the four keyword-anchored
patterns in source order, first usable result wins. -/
def parse_search_results (html : String) : Option Nat :=
  match tryPattern matchP1At html.data with
  | some r => r
  | none =>
    match tryPattern matchP2At html.data with
    | some r => r
    | none =>
      match tryPattern (matchColonAt "買取価格".data) html.data with
      | some r => r
      | none =>
        match tryPattern (matchColonAt "価格".data) html.data with
        | some r => r
        | none => none

/-! ### `MorimoriPriceScraperV2.extract_price_from_text` -/

/-- Anchored match for `([\d,]+)\s*円`: greedy nonempty digit-comma run,
optional whitespace, then `円`. -/
def matchTextYenAt (cs : List Char) : Option (List Char) :=
  let ds := cs.takeWhile isDigitComma
  if ds.isEmpty then none
  else
    match (cs.drop ds.length).dropWhile isPySpace with
    | '円' :: _ => some ds
    | _ => none

/-- Anchored match for `¥\s*([\d,]+)`. -/
def matchYenSignAt (cs : List Char) : Option (List Char) :=
  match cs with
  | '¥' :: rest =>
    let ds := (rest.dropWhile isPySpace).takeWhile isDigitComma
    if ds.isEmpty then none else some ds
  | _ => none

/-- Search for `\b(\d{3,})\b`: a maximal digit run of length at least 3
whose neighbours are not word characters. `prev` records whether the
character before the current position is a word character. -/
def searchWordDigits (prev : Bool) : List Char → Option (List Char)
  | [] => none
  | c :: cs =>
    if !prev && c.isDigit then
      let run := (c :: cs).takeWhile Char.isDigit
      let rest := (c :: cs).drop run.length
      if run.length ≥ 3 && (match rest.head? with
          | some d => !isWordChar d
          | none => true) then
        some run
      else searchWordDigits (isWordChar c) cs
    else searchWordDigits (isWordChar c) cs

/-- Model of `MorimoriPriceScraperV2.extract_price_from_text`: three patterns in
source order; the first two return the captured group with commas removed,
the third returns the bare digit run. -/
def extract_price_from_text (text : String) : Option (List Char) :=
  match reSearch matchTextYenAt text.data with
  | some ds => some (ds.filter (fun c => c ≠ ','))
  | none =>
    match reSearch matchYenSignAt text.data with
    | some ds => some (ds.filter (fun c => c ≠ ','))
    | none =>
      match searchWordDigits false text.data with
      | some ds => some ds
      | none => none

/-! ### `MobileIchibanScraper.parse_price` and the `f"¥{price:,}"` formatter -/

/-- Model of `MobileIchibanScraper.parse_price`: take the first maximal `[\d,]+` run
of the text, strip commas and convert with `int`; `0` both when no run
exists and when `int` raises on a comma-only run. -/
def parse_price (price_text : String) : Nat :=
  let run := (price_text.data.dropWhile (fun c => !isDigitComma c)).takeWhile isDigitComma
  let digs := run.filter (fun c => c ≠ ',')
  if run.isEmpty then 0
  else if digs.isEmpty then 0
  else digitsToNat digs

/-- Comma-groups a least-significant-first digit list in threes, the way
Python `format(n, ',')` groups counting from the right. -/
def commaGroup : List Char → List Char
  | [] => []
  | [a] => [a]
  | [a, b] => [a, b]
  | [a, b, c] => [a, b, c]
  | a :: b :: c :: d :: rest => a :: b :: c :: ',' :: commaGroup (d :: rest)

/-- Decimal digit character. -/
def digitChar (d : Nat) : Char := Char.ofNat (48 + d)

/-- Characters produced by the format specifier `{n:,}`. -/
def pyFormatComma (n : Nat) : List Char :=
  if n = 0 then ['0']
  else (commaGroup ((Nat.digits 10 n).map digitChar)).reverse

/-- Characters of the cell value `f"¥{price:,}"` written by `run_update`. -/
def formatPriceCell (n : Nat) : List Char := '¥' :: pyFormatComma n

/-! ### `MorimoriPCSystem.search_by_jan_code`

The retry loop is embedded over a response oracle giving, for each
attempt index, either an HTTP response or a raised `RequestException`. -/

/-- Outcome of one `session.get` as the Python code observes it. -/
inductive Resp where
  | ok (status : Nat) (html : String)
  | exn
deriving Repr, DecidableEq

/-- Observable behaviour of one call to `search_by_jan_code`: how many
requests were issued, the `time.sleep` durations in order, and the price
dictionary returned (`none` is Python `None`). -/
structure FetchTrace where
  attempts : Nat
  waits : List Nat
  result : Option Nat
deriving Repr, DecidableEq

/-- The `for retry in range(max_retries)` loop of `search_by_jan_code`:
`retry` is the current attempt index, `remaining` the iterations left.
Status 200 parses the body; 429 sleeps `(2 ** retry) * 2` and continues;
any other status returns `None` at once. An exception returns `None` on
the last iteration and otherwise sleeps `2 * (retry + 1)` and continues. -/
def searchLoop (resp : Nat → Resp) : Nat → Nat → FetchTrace
  | _, 0 => ⟨0, [], none⟩
  | retry, remaining + 1 =>
    match resp retry with
    | .ok status html =>
      if status = 200 then ⟨1, [], parse_search_results html⟩
      else if status = 429 then
        let t := searchLoop resp (retry + 1) remaining
        ⟨t.attempts + 1, (2 ^ retry * 2) :: t.waits, t.result⟩
      else ⟨1, [], none⟩
    | .exn =>
      if remaining = 0 then ⟨1, [], none⟩
      else
        let t := searchLoop resp (retry + 1) remaining
        ⟨t.attempts + 1, (2 * (retry + 1)) :: t.waits, t.result⟩

/-- The function `search_by_jan_code` with its hard-coded `max_retries = 3`. -/
def search_by_jan_code (resp : Nat → Resp) : FetchTrace :=
  searchLoop resp 0 3

/-! ### `MorimoriPriceScraperV2.make_request`

`requests.get` + `raise_for_status` inside a `try` that catches every
`RequestException`, HTTP errors included: `raise_for_status` raises
exactly when the status code is at least 400. -/

/-- One attempt as `make_request` observes it: a response with a status
code, or a network-level exception. -/
inductive Resp2 where
  | status (code : Nat)
  | netexn
deriving Repr, DecidableEq

/-- Observable behaviour of `make_request`: attempts issued, sleeps, and
the status code of the successfully returned response (`none` for the
`return None` failure path). -/
structure ReqTrace where
  attempts : Nat
  waits : List Nat
  ok : Option Nat
deriving Repr, DecidableEq

/-- The `for attempt in range(retries)` loop of `make_request`: a response
with status below 400 is returned; any exception (HTTP error raised by
`raise_for_status` or network error) sleeps `2 ** attempt` and retries,
except on the last attempt, which returns `None`. -/
def makeRequestLoop (resp : Nat → Resp2) : Nat → Nat → ReqTrace
  | _, 0 => ⟨0, [], none⟩
  | attempt, remaining + 1 =>
    match resp attempt with
    | .status code =>
      if code < 400 then ⟨1, [], some code⟩
      else if remaining = 0 then ⟨1, [], none⟩
      else
        let t := makeRequestLoop resp (attempt + 1) remaining
        ⟨t.attempts + 1, (2 ^ attempt) :: t.waits, t.ok⟩
    | .netexn =>
      if remaining = 0 then ⟨1, [], none⟩
      else
        let t := makeRequestLoop resp (attempt + 1) remaining
        ⟨t.attempts + 1, (2 ^ attempt) :: t.waits, t.ok⟩

/-- The function `make_request` with its default `retries = 3`. -/
def make_request (resp : Nat → Resp2) : ReqTrace :=
  makeRequestLoop resp 0 3

/-! ### `MorimoriPCSystem.run_update`

The batch runner is embedded as a state-passing function. Wall-clock
reads and the per-jan-code fetch results are oracles; spreadsheet writes
and `save_progress` calls are recorded in the run state. -/

/-- The `self.progress` dictionary (the fields the claims are about;
`start_time` and `last_update` carry no claim content). `completion_rate`
is a Python float holding exact small rationals here, modelled in `ℚ`. -/
structure Progress where
  current_index : Nat
  total_count : Nat
  processed_count : Nat
  success_count : Nat
  error_count : Nat
  is_running : Bool
  completion_rate : ℚ
deriving Repr, DecidableEq

/-- The in-memory defaults `load_progress` starts from before merging the
saved file. -/
def defaultProgress : Progress :=
  { current_index := 0,
    total_count := 0,
    processed_count := 0,
    success_count := 0,
    error_count := 0,
    is_running := false,
    completion_rate := 0 }

/-- Model of `load_progress`: defaults overridden wholesale by a saved progress
file when one exists (the file, written by `save_progress`, carries every
field). -/
def load_progress (saved : Option Progress) : Progress :=
  saved.getD defaultProgress

/-- A work item of `run_update`: sheet row number and jan code. -/
structure WorkItem where
  row_index : Nat
  jan_code : String
deriving Repr, DecidableEq

/-- The filter `for i, row in enumerate(data[1:], 2)` keeping rows whose
first cell is non-empty of length at least 10. -/
def validItems (data : List (List String)) : List WorkItem :=
  (data.drop 1).enum.filterMap fun p =>
    match p.2.head? with
    | some cell =>
      if cell ≠ "" ∧ 10 ≤ cell.length then some ⟨p.1 + 2, cell⟩ else none
    | none => none

/-- The `if max_items: valid_items = valid_items[:max_items]` truncation;
`0` is falsy in Python, so a zero cap truncates nothing. -/
def applyMaxItems (maxItems : Option Nat) (items : List WorkItem) : List WorkItem :=
  match maxItems with
  | none => items
  | some m => if m = 0 then items else items.take m

/-- The configuration fields `run_update` reads. -/
structure Config where
  batch_size : Nat
  delay_ms : Nat
  max_execution_time : Nat
deriving Repr, DecidableEq

/-- The defaults of `load_config`. -/
def defaultConfig : Config :=
  { batch_size := 20, delay_ms := 1500, max_execution_time := 300 }

/-- Python truthiness of `result['price']`: `None` and `0` are falsy. -/
def truthyPrice : Option Nat → Bool
  | some p => p ≠ 0
  | none => false

/-- The result dictionary of `process_single_item` (row, jan code, price;
status and urls are determined by these). -/
structure ItemResult where
  row_index : Nat
  jan_code : String
  price : Option Nat
deriving Repr, DecidableEq

/-- Model of `process_single_item`: the `price` field is set only when the search
returned a dictionary with a truthy `new_price`. The fetch-and-parse
composite `search_by_jan_code` is the oracle `prices`. -/
def process_single_item (prices : String → Option Nat) (it : WorkItem) : ItemResult :=
  match prices it.jan_code with
  | some p => if p ≠ 0 then ⟨it.row_index, it.jan_code, some p⟩
              else ⟨it.row_index, it.jan_code, none⟩
  | none => ⟨it.row_index, it.jan_code, none⟩

/-- One recorded `update_sheet_data` call: the code always passes the
range `f"C{row}:E{row}"`, i.e. columns 3 to 5 of one row, with a single
row of three cell values. -/
structure SheetWrite where
  row : Nat
  colStart : Nat
  colEnd : Nat
  values : List (List String)
deriving Repr, DecidableEq

/-- The price cell `f"¥{result['price']:,}" if result['price'] else '-'`. -/
def priceCellValue : Option Nat → String
  | some p => if p = 0 then "-" else String.mk (formatPriceCell p)
  | none => "-"

/-- The write `run_update` issues for one item result: range
`C{row}:E{row}` and the one-row value list (price, timestamp, hyperlink
formula). `dateStr` stands for `datetime.now()` formatting. -/
def writeFor (dateStr : String) (r : ItemResult) : SheetWrite :=
  { row := r.row_index,
    colStart := 3,
    colEnd := 5,
    values := [[priceCellValue r.price, dateStr,
      "=HYPERLINK(\"https://www.morimori-kaitori.jp/search?sk=" ++ r.jan_code
        ++ "\", \"詳細を見る\")"]] }

/-- The per-item counter update of `run_update`: `processed_count` always
increments; `success_count` increments exactly when `result['price']` is
truthy, otherwise `error_count` increments. -/
def itemStep (prog : Progress) (r : ItemResult) : Progress :=
  { prog with
    processed_count := prog.processed_count + 1,
    success_count := prog.success_count + (if truthyPrice r.price then 1 else 0),
    error_count := prog.error_count + (if truthyPrice r.price then 0 else 1) }

/-- Mutable state threaded through the batch loop: the progress record,
the spreadsheet writes issued so far, the checkpoints persisted by
`save_progress`, and the progress value after each processed item. -/
structure RunState where
  prog : Progress
  writes : List SheetWrite
  saves : List Progress
  trace : List Progress
deriving Repr, DecidableEq

/-- The inner `for i, item in enumerate(batch_items)` loop: process each
item, update the counters, and collect the result list for the flush. -/
def processItems (prices : String → Option Nat) :
    List WorkItem → RunState → RunState × List ItemResult
  | [], st => (st, [])
  | it :: rest, st =>
    let r := process_single_item prices it
    let st1 : RunState :=
      { st with prog := itemStep st.prog r, trace := st.trace ++ [itemStep st.prog r] }
    let out := processItems prices rest st1
    (out.1, r :: out.2)

/-- One iteration of the `while current_index < len(valid_items)` body
after the time check: process the batch slice, flush one write per
result, advance `current_index` to the batch end, recompute
`completion_rate = (batch_end / len) * 100` and persist the checkpoint. -/
def runBatch (prices : String → Option Nat) (dateStr : String) (total : Nat)
    (batchEnd : Nat) (batch : List WorkItem) (st : RunState) : RunState :=
  let out := processItems prices batch st
  let prog2 : Progress :=
    { out.1.prog with
      current_index := batchEnd,
      completion_rate := ((batchEnd : ℚ) / (total : ℚ)) * 100 }
  { prog := prog2,
    writes := out.1.writes ++ out.2.map (writeFor dateStr),
    saves := out.1.saves ++ [prog2],
    trace := out.1.trace }

/-- The batch loop. `elapsedAt ci` is the wall-clock elapsed time read at
the top of the iteration whose `current_index` is `ci`; the loop breaks
when it exceeds `max_execution_time`. `fuel` bounds the iterations (the
Python loop runs forever when `batch_size = 0`; with a positive batch
size, `items.length + 1` fuel is never exhausted). -/
def runLoop (cfg : Config) (elapsedAt : Nat → Nat) (prices : String → Option Nat)
    (dateStr : String) (items : List WorkItem) : Nat → Nat → RunState → RunState
  | 0, _, st => st
  | fuel + 1, ci, st =>
    if ci < items.length then
      if cfg.max_execution_time < elapsedAt ci then st
      else
        let batchEnd := min (ci + cfg.batch_size) items.length
        let batch := (items.drop ci).take (batchEnd - ci)
        runLoop cfg elapsedAt prices dateStr items fuel batchEnd
          (runBatch prices dateStr items.length batchEnd batch st)
    else st

/-- Result of one `run_update` invocation: the boolean return value, the
final in-memory progress, and the recorded writes, checkpoints and
per-item progress trace. -/
structure RunResult where
  ok : Bool
  final : Progress
  writes : List SheetWrite
  saves : List Progress
  trace : List Progress
deriving Repr, DecidableEq

/-- Model of `run_update`: reset the counters and `current_index` of the loaded
progress, filter the sheet data into work items, cap them, then run the
batch loop from local index 0; afterwards mark the run finished with
`completion_rate = 100.0` unconditionally and persist. Early exits when
the sheet has under two rows or no valid jan codes return `False`. -/
def run_update (cfg : Config) (saved : Progress) (data : List (List String))
    (maxItems : Option Nat) (elapsedAt : Nat → Nat)
    (prices : String → Option Nat) (dateStr : String) : RunResult :=
  let prog0 : Progress :=
    { saved with
      current_index := 0,
      processed_count := 0,
      success_count := 0,
      error_count := 0,
      is_running := true }
  if data.length < 2 then ⟨false, prog0, [], [], []⟩
  else
    let items := applyMaxItems maxItems (validItems data)
    let prog1 : Progress := { prog0 with total_count := items.length }
    if items.length = 0 then ⟨false, prog1, [], [], []⟩
    else
      let st := runLoop cfg elapsedAt prices dateStr items (items.length + 1) 0
        ⟨prog1, [], [], []⟩
      let pf : Progress :=
        { st.prog with
          is_running := false,
          completion_rate := 100 }
      ⟨true, pf, st.writes, st.saves ++ [pf], st.trace⟩

/-- The counter fields of `get_status` (the status report is read
directly off the progress record). -/
structure StatusReport where
  is_running : Bool
  completion_rate : ℚ
  processed_count : Nat
  total_count : Nat
  success_count : Nat
  error_count : Nat
deriving Repr, DecidableEq

/-- Model of `get_status`. -/
def get_status (p : Progress) : StatusReport :=
  ⟨p.is_running, p.completion_rate, p.processed_count, p.total_count,
   p.success_count, p.error_count⟩

/-! ### `MobileIchibanScraper` product extraction and ledger write -/

/-- A product dictionary as built by `extract_product_info` /
`extract_products_by_text_search`. -/
structure MobileProduct where
  jan_code : String
  product_name : String
  price : Nat
  price_text : String
  condition : String
deriving Repr, DecidableEq

/-- Model of `extract_product_info` given the price text found in the element: a
product is built, with `price := parse_price price_text`, exactly when the
price text is truthy. No positivity check is applied. -/
def extract_product_info (jan : String) (name : Option String)
    (price_text : String) (condition : Option String) : Option MobileProduct :=
  if price_text ≠ "" then
    some ⟨jan, name.getD "商品名不明", parse_price price_text, price_text,
      condition.getD "新品"⟩
  else none

/-- The per-row write decision of `update_spreadsheet_with_jan_codes`:
when the search returned at least one product, the first product's price
is written to the price cell unconditionally. -/
def writtenPriceCell (products : List MobileProduct) : Option Nat :=
  products.head?.map MobileProduct.price

/-- The cells touched by `MorimoriPriceScraperV2.update_spreadsheet` for a
row: `(row, 3)`, `(row, 4)`, `(row, 5)` — price, timestamp, url. -/
def update_spreadsheet_cells (row : Nat) : List (Nat × Nat) :=
  [(row, 3), (row, 4), (row, 5)]

/-! ### Concrete fixtures used by witnesses and counterexamples -/

/-- A three-row sheet snapshot: header plus two valid 10-digit jan codes
(rows 2 and 3). -/
def dataTwo : List (List String) := [["head"], ["1234567890"], ["2234567890"]]

/-- A one-row-of-data sheet snapshot. -/
def dataOne : List (List String) := [["head"], ["1234567890"]]

/-- A saved progress file left by an interrupted run: checkpoint at item
index 1 with `is_running` still true. -/
def savedK1 : Progress :=
  { current_index := 1,
    total_count := 2,
    processed_count := 1,
    success_count := 0,
    error_count := 1,
    is_running := true,
    completion_rate := 50 }

/-- A wall clock that never reaches the budget. -/
def elapsedZero : Nat → Nat := fun _ => 0

/-- A wall clock that exceeds the 300s budget at the check before the
second batch. -/
def elapsedLate : Nat → Nat := fun ci => if ci = 0 then 0 else 301

/-- A fetch oracle finding no price for any jan code. -/
def pricesNone : String → Option Nat := fun _ => none

/-- Configuration with one-item batches (the defaults otherwise). -/
def cfgBatch1 : Config :=
  { batch_size := 1, delay_ms := 1500, max_execution_time := 300 }

/-- A server answering HTTP 429 to every request. -/
def respAll429 : Nat → Resp := fun _ => Resp.ok 429 ""

/-- A server answering HTTP 404 to every request. -/
def respAll404 : Nat → Resp := fun _ => Resp.ok 404 ""

/-- A server answering 404 once, then 200. -/
def resp404Then200 : Nat → Resp2 :=
  fun i => if i = 0 then Resp2.status 404 else Resp2.status 200

/-- A server whose responses are all 404, as `make_request` sees them. -/
def resp2All404 : Nat → Resp2 := fun _ => Resp2.status 404

/-- A fetch oracle built from the full pipeline: every search gets HTTP
200 with a page carrying no price, the データなし (no data) outcome. -/
def pricesNoData : String → Option Nat :=
  fun _ => (search_by_jan_code (fun _ => Resp.ok 200 "the page has no price")).result

/-- The product `extract_product_info` builds from the price text 0円. -/
def zeroYenProduct : MobileProduct :=
  ⟨"4900000000000", "商品名不明", parse_price "0円", "0円", "新品"⟩

/-! ### Helper lemmas -/

/-- One pattern step of `parse_search_results` only ever returns a price
that passed the `if price > 0` guard. -/
theorem tryPattern_pos {mAt : List Char → Option (List Char × List Char)}
    {html : List Char} {p : Nat}
    (h : tryPattern mAt html = some (some p)) : 0 < p := by
  unfold tryPattern at h
  split at h
  · exact absurd h (by simp)
  · split at h
    · exact absurd h (by simp)
    · split at h
      · exact absurd h (by simp)
      · split at h
        · simp only [Option.some.injEq] at h
          subst h
          assumption
        · exact absurd h (by simp)

/-- The parser `parse_search_results` never returns a non-positive price. -/
theorem parse_search_results_pos (html : String) (p : Nat)
    (h : parse_search_results html = some p) : 0 < p := by
  unfold parse_search_results at h
  split at h
  next heq => subst h; exact tryPattern_pos heq
  next =>
    split at h
    next heq => subst h; exact tryPattern_pos heq
    next =>
      split at h
      next heq => subst h; exact tryPattern_pos heq
      next =>
        split at h
        next heq => subst h; exact tryPattern_pos heq
        next => exact absurd h (by simp)

theorem isDigitComma_digitChar {d : Nat} (hd : d < 10) :
    isDigitComma (digitChar d) = true := by
  interval_cases d <;> decide

theorem digitChar_ne_comma {d : Nat} (hd : d < 10) : digitChar d ≠ ',' := by
  interval_cases d <;> decide

theorem digitChar_toNat {d : Nat} (hd : d < 10) : (digitChar d).toNat = 48 + d := by
  interval_cases d <;> decide

theorem takeWhile_eq_self_of_all {p : Char → Bool} :
    ∀ {l : List Char}, (∀ c ∈ l, p c = true) → l.takeWhile p = l := by
  intro l
  induction l with
  | nil => intro; rfl
  | cons a l ih =>
    intro h
    simp only [List.takeWhile_cons, h a (by simp), if_true]
    rw [ih fun c hc => h c (List.mem_cons_of_mem a hc)]

theorem dropWhile_not_of_all {p : Char → Bool} {l : List Char}
    (h : ∀ c ∈ l, p c = true) : l.dropWhile (fun c => !p c) = l := by
  cases l with
  | nil => rfl
  | cons a l => simp [List.dropWhile_cons, h a (by simp)]

theorem mem_commaGroup {x : Char} :
    ∀ {ds : List Char}, x ∈ commaGroup ds → x ∈ ds ∨ x = ',' := by
  intro ds
  induction ds using commaGroup.induct with
  | case1 => intro h; exact absurd h (by simp [commaGroup])
  | case2 a => intro h; left; simpa [commaGroup] using h
  | case3 a b => intro h; left; simpa [commaGroup] using h
  | case4 a b c => intro h; left; simpa [commaGroup] using h
  | case5 a b c d rest ih =>
    intro h
    simp only [commaGroup, List.mem_cons] at h
    rcases h with h | h | h | h | h
    · left; simp [h]
    · left; simp [h]
    · left; simp [h]
    · right; exact h
    · rcases ih h with h1 | h1
      · left; simp only [List.mem_cons] at h1 ⊢; tauto
      · right; exact h1

theorem commaGroup_filter :
    ∀ (ds : List Char), (∀ x ∈ ds, x ≠ ',') →
      (commaGroup ds).filter (fun x => x ≠ ',') = ds := by
  intro ds
  induction ds using commaGroup.induct with
  | case1 => intro; rfl
  | case2 a => intro h; simp [commaGroup, List.filter, h a (by simp)]
  | case3 a b =>
    intro h
    simp [commaGroup, List.filter, h a (by simp), h b (by simp)]
  | case4 a b c =>
    intro h
    simp [commaGroup, List.filter, h a (by simp), h b (by simp), h c (by simp)]
  | case5 a b c d rest ih =>
    intro h
    have hrest : ∀ x ∈ d :: rest, x ≠ ',' := by
      intro x hx
      exact h x (by simp only [List.mem_cons] at hx ⊢; tauto)
    simp only [commaGroup, List.filter_cons]
    simp [h a (by simp), h b (by simp), h c (by simp)]
    simpa using ih hrest

theorem foldr_digitChar_ofDigits :
    ∀ (L : List Nat), (∀ d ∈ L, d < 10) →
      L.foldr (fun d a => 10 * a + ((digitChar d).toNat - 48)) 0
        = Nat.ofDigits 10 L := by
  intro L
  induction L with
  | nil => intro; simp [Nat.ofDigits]
  | cons d L ih =>
    intro h
    rw [List.foldr_cons, ih fun x hx => h x (List.mem_cons_of_mem d hx),
      Nat.ofDigits_cons, digitChar_toNat (h d (List.mem_cons_self d L))]
    omega

/-! ### Claim theorems: price grammar round trip -/

/-- Claim C9: formatting a positive integer with `f"¥{price:,}"` and
re-parsing with `MobileIchibanScraper.parse_price` yields the integer
back: the first digit-comma run of the formatted text is the whole
grouped numeral, comma-stripping recovers the decimal digits, and `int`
inverts the rendering. -/
theorem price_format_parse_roundtrip (n : Nat) (h : 0 < n) :
    parse_price (String.mk (formatPriceCell n)) = n := by
  have hn : n ≠ 0 := Nat.pos_iff_ne_zero.mp h
  have hlt : ∀ d ∈ Nat.digits 10 n, d < 10 :=
    fun d hd => Nat.digits_lt_base (by norm_num) hd
  have hdc : ∀ x ∈ (Nat.digits 10 n).map digitChar, isDigitComma x = true := by
    intro x hx
    obtain ⟨d, hd, rfl⟩ := List.mem_map.mp hx
    exact isDigitComma_digitChar (hlt d hd)
  have hnc : ∀ x ∈ (Nat.digits 10 n).map digitChar, x ≠ ',' := by
    intro x hx
    obtain ⟨d, hd, rfl⟩ := List.mem_map.mp hx
    exact digitChar_ne_comma (hlt d hd)
  have hbody : ∀ x ∈ (commaGroup ((Nat.digits 10 n).map digitChar)).reverse,
      isDigitComma x = true := by
    intro x hx
    rcases mem_commaGroup (List.mem_reverse.mp hx) with h1 | h1
    · exact hdc x h1
    · subst h1; decide
  have hds_ne : (Nat.digits 10 n).map digitChar ≠ [] := by
    simp [Nat.digits_ne_nil_iff_ne_zero, hn]
  have key : formatPriceCell n
      = '¥' :: (commaGroup ((Nat.digits 10 n).map digitChar)).reverse := by
    rw [formatPriceCell, pyFormatComma, if_neg hn]
  simp only [parse_price, key]
  rw [List.dropWhile_cons]
  simp only [show (!isDigitComma '¥') = true from rfl, if_true]
  rw [dropWhile_not_of_all hbody, takeWhile_eq_self_of_all hbody]
  rw [List.filter_reverse, commaGroup_filter _ hnc]
  have hrev_ne : ((Nat.digits 10 n).map digitChar).reverse ≠ [] := by
    simpa using hds_ne
  have hrun_ne : (commaGroup ((Nat.digits 10 n).map digitChar)).reverse ≠ [] := by
    intro hcg
    have hcg2 : commaGroup ((Nat.digits 10 n).map digitChar) = [] := by
      simpa using congrArg List.reverse hcg
    have hmap : (Nat.digits 10 n).map digitChar = [] := by
      rw [← commaGroup_filter _ hnc, hcg2]
      rfl
    exact hds_ne hmap
  rw [if_neg (by simpa [List.isEmpty_iff] using hrun_ne),
    if_neg (by simpa [List.isEmpty_iff] using hrev_ne)]
  unfold digitsToNat
  rw [List.foldl_reverse, List.foldr_map,
    foldr_digitChar_ofDigits _ hlt, Nat.ofDigits_digits]

/-- Witness for C9 at the concrete price 12345. -/
theorem price_format_parse_roundtrip_witness :
    0 < 12345 ∧ parse_price (String.mk (formatPriceCell 12345)) = 12345 :=
  ⟨by decide, price_format_parse_roundtrip 12345 (by decide)⟩

/-! ### Claim theorems: fetcher -/

/-- Claim C3: when every attempt is answered HTTP 429, `search_by_jan_code`
issues exactly `max_retries = 3` requests, sleeps `(2 ^ attempt) * 2`
seconds after each 429 (attempt starting at 0), returns the rate-limited
`None` outcome, and the total wait equals the sum of the exponential
backoff series over the retry budget. -/
theorem ratelimited_backoff_schedule (resp : Nat → Resp)
    (h : ∀ i, ∃ html, resp i = Resp.ok 429 html) :
    (search_by_jan_code resp).attempts = 3 ∧
    (search_by_jan_code resp).waits = [2 ^ 0 * 2, 2 ^ 1 * 2, 2 ^ 2 * 2] ∧
    (search_by_jan_code resp).result = none ∧
    (search_by_jan_code resp).waits.sum
      = (List.range 3 |>.map fun i => 2 ^ i * 2).sum := by
  obtain ⟨h0, e0⟩ := h 0
  obtain ⟨h1, e1⟩ := h 1
  obtain ⟨h2, e2⟩ := h 2
  simp [search_by_jan_code, searchLoop, e0, e1, e2, List.range_succ]

/-- Witness for C3 at the concrete all-429 server. -/
theorem ratelimited_backoff_schedule_witness :
    (∀ i, ∃ html, respAll429 i = Resp.ok 429 html) ∧
    (search_by_jan_code respAll429).attempts = 3 ∧
    (search_by_jan_code respAll429).waits = [2 ^ 0 * 2, 2 ^ 1 * 2, 2 ^ 2 * 2] ∧
    (search_by_jan_code respAll429).result = none ∧
    (search_by_jan_code respAll429).waits.sum
      = (List.range 3 |>.map fun i => 2 ^ i * 2).sum :=
  ⟨fun _ => ⟨"", rfl⟩, ratelimited_backoff_schedule respAll429 (fun _ => ⟨"", rfl⟩)⟩

/-- Claim C4, counterexample: `MorimoriPriceScraperV2.make_request` does
not treat a non-2xx, non-429 first response as final — a 404 raises in
`raise_for_status`, is caught with the transient errors, and is retried
after a `2 ^ 0` second backoff, succeeding on the second attempt. -/
theorem make_request_retries_http_error :
    make_request resp404Then200 = ⟨2, [1], some 200⟩ ∧
    ¬ ((make_request resp404Then200).attempts = 1 ∧
       (make_request resp404Then200).waits = []) := by
  refine ⟨rfl, fun hc => ?_⟩
  have h2 : (make_request resp404Then200).attempts = 2 := rfl
  rw [hc.1] at h2
  exact absurd h2 (by decide)

/-- Claim C4, amended: `MorimoriPCSystem.search_by_jan_code` returns the
no-data outcome immediately after a single attempt, with no retry and no
wait, on any status other than 200 and 429; by contrast
`MorimoriPriceScraperV2.make_request` retries an HTTP-error status like a
transient failure, sleeping `2 ^ attempt` between its three attempts. -/
theorem http_error_immediate_versus_retried :
    (∀ (resp : Nat → Resp) (s : Nat) (html : String),
        resp 0 = Resp.ok s html → s ≠ 200 → s ≠ 429 →
        search_by_jan_code resp = ⟨1, [], none⟩) ∧
    (∀ resp2 : Nat → Resp2, (∀ i, resp2 i = Resp2.status 404) →
        make_request resp2 = ⟨3, [2 ^ 0, 2 ^ 1], none⟩) := by
  constructor
  · intro resp s html h0 hs200 hs429
    simp [search_by_jan_code, searchLoop, h0, hs200, hs429]
  · intro resp2 hall
    simp [make_request, makeRequestLoop, hall 0, hall 1, hall 2]

/-- Witness for C4 at a concrete 404-answering server. -/
theorem http_error_immediate_versus_retried_witness :
    respAll404 0 = Resp.ok 404 "" ∧ (404 : Nat) ≠ 200 ∧ (404 : Nat) ≠ 429 ∧
    search_by_jan_code respAll404 = ⟨1, [], none⟩ ∧
    (∀ i, resp2All404 i = Resp2.status 404) ∧
    make_request resp2All404 = ⟨3, [2 ^ 0, 2 ^ 1], none⟩ :=
  ⟨rfl, by decide, by decide,
   http_error_immediate_versus_retried.1 respAll404 404 "" rfl (by decide) (by decide),
   fun i => rfl,
   http_error_immediate_versus_retried.2 resp2All404 (fun i => rfl)⟩

/-! ### Claim theorems: extraction fixtures -/

/-- Claim C5: the four fixture, each against the extractor the spec
attributes it to. A page that is just 12,345円 or ¥1,234 yields 12345
and 1234 through `extract_price_from_text` (the generic price grammar);
on 通常買取価格：9,800円 the keyword-anchored `parse_search_results` finds
9800 through its second pattern (the first, ASCII-colon pattern fails,
strategy 2 matches); and on 上限15,000円 the keyword-anchored extractor
selects no price at all. -/
theorem fixture_extraction_behaviour :
    extract_price_from_text "12,345円" = some "12345".data ∧
    (extract_price_from_text "12,345円").map digitsToNat = some 12345 ∧
    extract_price_from_text "¥1,234" = some "1234".data ∧
    (extract_price_from_text "¥1,234").map digitsToNat = some 1234 ∧
    tryPattern matchP1At "通常買取価格：9,800円".data = none ∧
    tryPattern matchP2At "通常買取価格：9,800円".data = some (some 9800) ∧
    parse_search_results "通常買取価格：9,800円" = some 9800 ∧
    parse_search_results "上限15,000円" = none := by
  decide

/-! ### Helper lemmas about the batch loop -/

theorem process_single_item_row (prices : String → Option Nat) (it : WorkItem) :
    (process_single_item prices it).row_index = it.row_index := by
  unfold process_single_item
  split
  · split <;> rfl
  · rfl

theorem processItems_snd (prices : String → Option Nat) :
    ∀ (batch : List WorkItem) (st : RunState),
      (processItems prices batch st).2 = batch.map (process_single_item prices) := by
  intro batch
  induction batch with
  | nil => intro st; rfl
  | cons it rest ih => intro st; simp [processItems, ih]

theorem processItems_writes (prices : String → Option Nat) :
    ∀ (batch : List WorkItem) (st : RunState),
      (processItems prices batch st).1.writes = st.writes := by
  intro batch
  induction batch with
  | nil => intro st; rfl
  | cons it rest ih => intro st; simp [processItems, ih]

theorem processItems_counters (prices : String → Option Nat) :
    ∀ (batch : List WorkItem) (st : RunState),
      (processItems prices batch st).1.prog.current_index = st.prog.current_index ∧
      (processItems prices batch st).1.prog.processed_count
        = st.prog.processed_count + batch.length ∧
      (processItems prices batch st).1.prog.success_count
        = st.prog.success_count
          + batch.countP (fun it => truthyPrice (process_single_item prices it).price) ∧
      (processItems prices batch st).1.prog.error_count
        = st.prog.error_count
          + batch.countP (fun it => !truthyPrice (process_single_item prices it).price) := by
  intro batch
  induction batch with
  | nil => intro st; refine ⟨rfl, rfl, rfl, rfl⟩
  | cons it rest ih =>
    intro st
    simp only [processItems]
    obtain ⟨i1, i2, i3, i4⟩ := ih
      { st with
        prog := itemStep st.prog (process_single_item prices it),
        trace := st.trace ++ [itemStep st.prog (process_single_item prices it)] }
    refine ⟨?_, ?_, ?_, ?_⟩
    · rw [i1]; rfl
    · rw [i2]
      show st.prog.processed_count + 1 + rest.length = _
      simp only [List.length_cons]
      omega
    · rw [i3]
      show st.prog.success_count + _ + _ = _
      simp only [List.countP_cons]
      cases truthyPrice (process_single_item prices it).price
      all_goals simp
      all_goals omega
    · rw [i4]
      show st.prog.error_count + _ + _ = _
      simp only [List.countP_cons]
      cases truthyPrice (process_single_item prices it).price
      all_goals simp
      all_goals omega

theorem processItems_trace_inv (prices : String → Option Nat) :
    ∀ (batch : List WorkItem) (st : RunState),
      (∀ p ∈ st.trace, p.processed_count = p.success_count + p.error_count) →
      st.prog.processed_count = st.prog.success_count + st.prog.error_count →
      (∀ p ∈ (processItems prices batch st).1.trace,
          p.processed_count = p.success_count + p.error_count) ∧
      (processItems prices batch st).1.prog.processed_count
        = (processItems prices batch st).1.prog.success_count
          + (processItems prices batch st).1.prog.error_count := by
  intro batch
  induction batch with
  | nil => intro st h1 h2; exact ⟨h1, h2⟩
  | cons it rest ih =>
    intro st h1 h2
    have hstep : (itemStep st.prog (process_single_item prices it)).processed_count
        = (itemStep st.prog (process_single_item prices it)).success_count
          + (itemStep st.prog (process_single_item prices it)).error_count := by
      simp only [itemStep]
      cases truthyPrice (process_single_item prices it).price <;> simp <;> try omega
    refine ih _ ?_ hstep
    intro p hp
    rcases List.mem_append.mp hp with hp | hp
    · exact h1 p hp
    · simp only [List.mem_singleton] at hp
      subst hp
      exact hstep

theorem dropSliceDecomp (items : List WorkItem) (ci batchEnd : Nat)
    (h : ci ≤ batchEnd) :
    items.drop ci = (items.drop ci).take (batchEnd - ci) ++ items.drop batchEnd := by
  conv_lhs => rw [← List.take_append_drop (batchEnd - ci) (items.drop ci)]
  congr 1
  rw [List.drop_drop]
  congr 1
  omega

theorem runLoop_writes_complete (cfg : Config) (elapsedAt : Nat → Nat)
    (prices : String → Option Nat) (dateStr : String) (items : List WorkItem)
    (hbs : 0 < cfg.batch_size)
    (ht : ∀ j, elapsedAt j ≤ cfg.max_execution_time) :
    ∀ (fuel ci : Nat) (st : RunState), items.length - ci < fuel →
      (runLoop cfg elapsedAt prices dateStr items fuel ci st).writes
        = st.writes ++ (items.drop ci).map
            (fun it => writeFor dateStr (process_single_item prices it)) := by
  intro fuel
  induction fuel with
  | zero => intro ci st hf; omega
  | succ fuel ih =>
    intro ci st hf
    rw [runLoop]
    by_cases hci : ci < items.length
    · rw [if_pos hci, if_neg (by exact Nat.not_lt.mpr (ht ci))]
      have hle : ci ≤ min (ci + cfg.batch_size) items.length := by omega
      have hlt2 : items.length - min (ci + cfg.batch_size) items.length < fuel := by
        omega
      rw [ih _ _ hlt2]
      show (runBatch prices dateStr items.length _ _ st).writes ++ _ = _
      rw [runBatch]
      simp only [processItems_writes, processItems_snd, List.map_map,
        Function.comp_def]
      rw [List.append_assoc, ← List.map_append, ← dropSliceDecomp items ci _ hle]
    · rw [if_neg hci]
      rw [List.drop_eq_nil_of_le (by omega)]
      simp

theorem runLoop_counters_complete (cfg : Config) (elapsedAt : Nat → Nat)
    (prices : String → Option Nat) (dateStr : String) (items : List WorkItem)
    (hbs : 0 < cfg.batch_size)
    (ht : ∀ j, elapsedAt j ≤ cfg.max_execution_time) :
    ∀ (fuel ci : Nat) (st : RunState), items.length - ci < fuel →
      (runLoop cfg elapsedAt prices dateStr items fuel ci st).prog.processed_count
        = st.prog.processed_count + (items.drop ci).length ∧
      (runLoop cfg elapsedAt prices dateStr items fuel ci st).prog.success_count
        = st.prog.success_count + (items.drop ci).countP
            (fun it => truthyPrice (process_single_item prices it).price) ∧
      (runLoop cfg elapsedAt prices dateStr items fuel ci st).prog.error_count
        = st.prog.error_count + (items.drop ci).countP
            (fun it => !truthyPrice (process_single_item prices it).price) := by
  intro fuel
  induction fuel with
  | zero => intro ci st hf; omega
  | succ fuel ih =>
    intro ci st hf
    rw [runLoop]
    by_cases hci : ci < items.length
    · rw [if_pos hci, if_neg (by exact Nat.not_lt.mpr (ht ci))]
      have hle : ci ≤ min (ci + cfg.batch_size) items.length := by omega
      have hlt2 : items.length - min (ci + cfg.batch_size) items.length < fuel := by
        omega
      obtain ⟨j1, j2, j3⟩ := ih (min (ci + cfg.batch_size) items.length)
        (runBatch prices dateStr items.length
          (min (ci + cfg.batch_size) items.length)
          ((items.drop ci).take (min (ci + cfg.batch_size) items.length - ci)) st)
        hlt2
      obtain ⟨k1, k2, k3, k4⟩ := processItems_counters prices
        ((items.drop ci).take (min (ci + cfg.batch_size) items.length - ci)) st
      have hsplit := dropSliceDecomp items ci
        (min (ci + cfg.batch_size) items.length) hle
      refine ⟨?_, ?_, ?_⟩
      · rw [j1]
        show (runBatch prices dateStr _ _ _ st).prog.processed_count + _ = _
        rw [runBatch]
        simp only []
        rw [k2]
        conv_rhs => rw [hsplit]
        simp [List.length_append]
        omega
      · rw [j2]
        show (runBatch prices dateStr _ _ _ st).prog.success_count + _ = _
        rw [runBatch]
        simp only []
        rw [k3]
        conv_rhs => rw [hsplit]
        rw [List.countP_append]
        omega
      · rw [j3]
        show (runBatch prices dateStr _ _ _ st).prog.error_count + _ = _
        rw [runBatch]
        simp only []
        rw [k4]
        conv_rhs => rw [hsplit]
        rw [List.countP_append]
        omega
    · rw [if_neg hci]
      rw [List.drop_eq_nil_of_le (by omega)]
      simp

theorem runLoop_writes_mem (cfg : Config) (elapsedAt : Nat → Nat)
    (prices : String → Option Nat) (dateStr : String) (items : List WorkItem) :
    ∀ (fuel ci : Nat) (st : RunState) (w : SheetWrite),
      w ∈ (runLoop cfg elapsedAt prices dateStr items fuel ci st).writes →
      w ∈ st.writes ∨
        ∃ it ∈ items, w = writeFor dateStr (process_single_item prices it) := by
  intro fuel
  induction fuel with
  | zero => intro ci st w hw; exact Or.inl hw
  | succ fuel ih =>
    intro ci st w hw
    rw [runLoop] at hw
    by_cases hci : ci < items.length
    · rw [if_pos hci] at hw
      by_cases htime : cfg.max_execution_time < elapsedAt ci
      · rw [if_pos htime] at hw
        exact Or.inl hw
      · rw [if_neg htime] at hw
        rcases ih _ _ _ hw with hw1 | hw1
        · rw [runBatch] at hw1
          simp only [processItems_writes, processItems_snd, List.map_map,
            Function.comp_def, List.mem_append] at hw1
          rcases hw1 with hw2 | hw2
          · exact Or.inl hw2
          · rcases List.mem_map.mp hw2 with ⟨it, hit, hweq⟩
            refine Or.inr ⟨it, ?_, hweq.symm⟩
            exact ((List.take_sublist _ _).trans (List.drop_sublist _ _)).subset hit
        · exact Or.inr hw1
    · rw [if_neg hci] at hw
      exact Or.inl hw

theorem runLoop_trace_inv (cfg : Config) (elapsedAt : Nat → Nat)
    (prices : String → Option Nat) (dateStr : String) (items : List WorkItem) :
    ∀ (fuel ci : Nat) (st : RunState),
      (∀ p ∈ st.trace, p.processed_count = p.success_count + p.error_count) →
      st.prog.processed_count = st.prog.success_count + st.prog.error_count →
      (∀ p ∈ (runLoop cfg elapsedAt prices dateStr items fuel ci st).trace,
          p.processed_count = p.success_count + p.error_count) ∧
      (runLoop cfg elapsedAt prices dateStr items fuel ci st).prog.processed_count
        = (runLoop cfg elapsedAt prices dateStr items fuel ci st).prog.success_count
          + (runLoop cfg elapsedAt prices dateStr items fuel ci st).prog.error_count := by
  intro fuel
  induction fuel with
  | zero => intro ci st h1 h2; exact ⟨h1, h2⟩
  | succ fuel ih =>
    intro ci st h1 h2
    rw [runLoop]
    by_cases hci : ci < items.length
    · rw [if_pos hci]
      by_cases htime : cfg.max_execution_time < elapsedAt ci
      · rw [if_pos htime]
        exact ⟨h1, h2⟩
      · rw [if_neg htime]
        obtain ⟨t1, t2⟩ := processItems_trace_inv prices
          ((items.drop ci).take (min (ci + cfg.batch_size) items.length - ci))
          st h1 h2
        refine ih _ _ ?_ ?_
        · show ∀ p ∈ (runBatch prices dateStr _ _ _ st).trace, _
          rw [runBatch]
          exact t1
        · show (runBatch prices dateStr _ _ _ st).prog.processed_count = _
          rw [runBatch]
          simp only []
          obtain ⟨k1, k2, k3, k4⟩ := processItems_counters prices
            ((items.drop ci).take (min (ci + cfg.batch_size) items.length - ci)) st
          exact t2
    · rw [if_neg hci]
      exact ⟨h1, h2⟩

theorem validItems_short (data : List (List String)) (h : data.length < 2) :
    validItems data = [] := by
  unfold validItems
  rw [List.drop_eq_nil_of_le (by omega)]
  rfl

theorem applyMaxItems_nil (maxItems : Option Nat) : applyMaxItems maxItems [] = [] := by
  cases maxItems with
  | none => rfl
  | some m => simp [applyMaxItems]

/-! ### Claim theorems: run-level counterexamples -/

/-- Claim C1, counterexample: with a saved checkpoint `current_index = 1`
and `is_running = true`, a new `run_update` invocation still writes the
row of item index 0 (sheet row 2) — the saved index is reset to zero and
every valid item is reprocessed. -/
theorem resume_checkpoint_ignored :
    savedK1.current_index = 1 ∧ savedK1.is_running = true ∧
    (validItems dataTwo).map WorkItem.row_index = [2, 3] ∧
    (run_update defaultConfig savedK1 dataTwo none elapsedZero pricesNone
        "d").writes.map SheetWrite.row = [2, 3] ∧
    (run_update defaultConfig savedK1 dataTwo none elapsedZero pricesNone
        "d").final.current_index = 2 := by
  decide

/-- Claim C2: with two items, one-item batches and a 300s budget exceeded
(301s) at the check before the second batch, the run stops after flushing
only the first item (one write, both persisted checkpoints carrying
`current_index = 1`), but the unconditional completion block then
persists `completion_rate = 100` — not a value below 100 as the claim
requires for the time-budget-exceeded outcome. -/
theorem time_budget_final_rate_overwritten :
    (run_update cfgBatch1 defaultProgress dataTwo none elapsedLate pricesNone
        "d").writes.map SheetWrite.row = [2] ∧
    (run_update cfgBatch1 defaultProgress dataTwo none elapsedLate pricesNone
        "d").final.processed_count = 1 ∧
    (run_update cfgBatch1 defaultProgress dataTwo none elapsedLate pricesNone
        "d").final.total_count = 2 ∧
    (run_update cfgBatch1 defaultProgress dataTwo none elapsedLate pricesNone
        "d").final.current_index = 1 ∧
    (run_update cfgBatch1 defaultProgress dataTwo none elapsedLate pricesNone
        "d").final.is_running = false ∧
    (run_update cfgBatch1 defaultProgress dataTwo none elapsedLate pricesNone
        "d").saves.map Progress.current_index = [1, 1] ∧
    (run_update cfgBatch1 defaultProgress dataTwo none elapsedLate pricesNone
        "d").final.completion_rate = 100 := by
  decide

/-- Claim C7, counterexample: an item whose search succeeds (HTTP 200)
but whose page holds no price — the データなし outcome the claim calls
`NotFoundOnSite` — increments `error_count`, which ends at 1, not 0. -/
theorem no_data_item_counted_as_error :
    pricesNoData "1234567890" = none ∧
    (run_update defaultConfig defaultProgress dataOne none elapsedZero
        pricesNoData "d").final.processed_count = 1 ∧
    (run_update defaultConfig defaultProgress dataOne none elapsedZero
        pricesNoData "d").final.success_count = 0 ∧
    (run_update defaultConfig defaultProgress dataOne none elapsedZero
        pricesNoData "d").final.error_count = 1 := by
  decide

/-- Claim C1, amended: a new invocation ignores the persisted checkpoint
entirely — `run_update` resets `current_index` to 0 and, whenever the
time budget is never reached and the batch size is positive, issues
exactly one ledger write per valid item starting at item index 0,
whatever `current_index` the saved progress holds. -/
theorem run_update_processes_all_items (cfg : Config) (saved : Progress)
    (data : List (List String)) (maxItems : Option Nat) (elapsedAt : Nat → Nat)
    (prices : String → Option Nat) (dateStr : String)
    (hbs : 0 < cfg.batch_size)
    (ht : ∀ j, elapsedAt j ≤ cfg.max_execution_time) :
    (run_update cfg saved data maxItems elapsedAt prices dateStr).writes.map
        SheetWrite.row
      = (applyMaxItems maxItems (validItems data)).map WorkItem.row_index := by
  simp only [run_update]
  by_cases hd : data.length < 2
  · rw [if_pos hd, validItems_short data hd, applyMaxItems_nil]
    rfl
  · rw [if_neg hd]
    by_cases hz : (applyMaxItems maxItems (validItems data)).length = 0
    · rw [if_pos hz, List.length_eq_zero.mp hz]
      rfl
    · rw [if_neg hz]
      rw [runLoop_writes_complete cfg elapsedAt prices dateStr _ hbs ht _ 0 _
        (by omega)]
      rw [List.drop_zero, List.nil_append, List.map_map]
      have hfun : (SheetWrite.row ∘
          fun it => writeFor dateStr (process_single_item prices it))
            = WorkItem.row_index :=
        funext fun it => process_single_item_row prices it
      rw [hfun]

/-- Witness for the amended C1 at the concrete interrupted-run fixture. -/
theorem run_update_processes_all_items_witness :
    0 < defaultConfig.batch_size ∧
    (∀ j, elapsedZero j ≤ defaultConfig.max_execution_time) ∧
    (run_update defaultConfig savedK1 dataTwo none elapsedZero pricesNone
        "d").writes.map SheetWrite.row
      = (applyMaxItems none (validItems dataTwo)).map WorkItem.row_index :=
  ⟨by decide, fun _ => Nat.zero_le _,
   run_update_processes_all_items defaultConfig savedK1 dataTwo none elapsedZero
     pricesNone "d" (by decide) (fun _ => Nat.zero_le _)⟩

/-- Claim C7, amended: over a whole run (budget never reached, positive
batch size) `success_count` ends exactly at the number of items whose
fetch-and-extract produced a truthy (positive) price; every other item —
the no-price データなし outcome included — lands in `error_count`, and
`processed_count` covers all items. -/
theorem run_update_counter_semantics (cfg : Config) (saved : Progress)
    (data : List (List String)) (maxItems : Option Nat) (elapsedAt : Nat → Nat)
    (prices : String → Option Nat) (dateStr : String)
    (hbs : 0 < cfg.batch_size)
    (ht : ∀ j, elapsedAt j ≤ cfg.max_execution_time) :
    (run_update cfg saved data maxItems elapsedAt prices dateStr).final.processed_count
      = (applyMaxItems maxItems (validItems data)).length ∧
    (run_update cfg saved data maxItems elapsedAt prices dateStr).final.success_count
      = (applyMaxItems maxItems (validItems data)).countP
          (fun it => truthyPrice (process_single_item prices it).price) ∧
    (run_update cfg saved data maxItems elapsedAt prices dateStr).final.error_count
      = (applyMaxItems maxItems (validItems data)).countP
          (fun it => !truthyPrice (process_single_item prices it).price) := by
  simp only [run_update]
  by_cases hd : data.length < 2
  · rw [if_pos hd, validItems_short data hd, applyMaxItems_nil]
    exact ⟨rfl, rfl, rfl⟩
  · rw [if_neg hd]
    by_cases hz : (applyMaxItems maxItems (validItems data)).length = 0
    · rw [if_pos hz, List.length_eq_zero.mp hz]
      exact ⟨rfl, rfl, rfl⟩
    · rw [if_neg hz]
      obtain ⟨j1, j2, j3⟩ := runLoop_counters_complete cfg elapsedAt prices dateStr
        (applyMaxItems maxItems (validItems data)) hbs ht
        ((applyMaxItems maxItems (validItems data)).length + 1) 0
        ⟨{ { saved with
              current_index := 0,
              processed_count := 0,
              success_count := 0,
              error_count := 0,
              is_running := true } with
            total_count := (applyMaxItems maxItems (validItems data)).length },
          [], [], []⟩
        (by omega)
      refine ⟨?_, ?_, ?_⟩
      · show (runLoop _ _ _ _ _ _ _ _).prog.processed_count = _
        rw [j1, List.drop_zero]
        show 0 + _ = _
        omega
      · show (runLoop _ _ _ _ _ _ _ _).prog.success_count = _
        rw [j2, List.drop_zero]
        show 0 + _ = _
        omega
      · show (runLoop _ _ _ _ _ _ _ _).prog.error_count = _
        rw [j3, List.drop_zero]
        show 0 + _ = _
        omega

/-- Witness for the amended C7: one no-price item, counted as the one
error. -/
theorem run_update_counter_semantics_witness :
    0 < defaultConfig.batch_size ∧
    (∀ j, elapsedZero j ≤ defaultConfig.max_execution_time) ∧
    (run_update defaultConfig defaultProgress dataOne none elapsedZero
        pricesNoData "d").final.processed_count
      = (applyMaxItems none (validItems dataOne)).length ∧
    (run_update defaultConfig defaultProgress dataOne none elapsedZero
        pricesNoData "d").final.success_count
      = (applyMaxItems none (validItems dataOne)).countP
          (fun it => truthyPrice (process_single_item pricesNoData it).price) ∧
    (run_update defaultConfig defaultProgress dataOne none elapsedZero
        pricesNoData "d").final.error_count
      = (applyMaxItems none (validItems dataOne)).countP
          (fun it => !truthyPrice (process_single_item pricesNoData it).price) :=
  ⟨by decide, fun _ => Nat.zero_le _,
   run_update_counter_semantics defaultConfig defaultProgress dataOne none
     elapsedZero pricesNoData "d" (by decide) (fun _ => Nat.zero_le _)⟩

/-- Claim C8: every ledger write of a run targets the three result
columns C..E (3 to 5) of the row of some valid work item — one row of
three cell values — and never touches the identifier column B (2);
likewise the cell writes of `MorimoriPriceScraperV2.update_spreadsheet`
stay in columns 3 to 5 of their row. -/
theorem ledger_writes_fixed_result_range (cfg : Config) (saved : Progress)
    (data : List (List String)) (maxItems : Option Nat) (elapsedAt : Nat → Nat)
    (prices : String → Option Nat) (dateStr : String) (w : SheetWrite)
    (hw : w ∈ (run_update cfg saved data maxItems elapsedAt prices dateStr).writes) :
    (w.colStart = 3 ∧ w.colEnd = 5 ∧ w.values.length = 1 ∧
      (∀ v ∈ w.values, v.length = 3) ∧
      (∃ it ∈ applyMaxItems maxItems (validItems data), w.row = it.row_index) ∧
      ¬ (w.colStart ≤ 2 ∧ 2 ≤ w.colEnd)) ∧
    (∀ (row : Nat) (cell : Nat × Nat), cell ∈ update_spreadsheet_cells row →
      cell.1 = row ∧ 3 ≤ cell.2 ∧ cell.2 ≤ 5 ∧ cell.2 ≠ 2) := by
  constructor
  · simp only [run_update] at hw
    by_cases hd : data.length < 2
    · rw [if_pos hd] at hw
      exact absurd hw (by simp)
    · rw [if_neg hd] at hw
      by_cases hz : (applyMaxItems maxItems (validItems data)).length = 0
      · rw [if_pos hz] at hw
        exact absurd hw (by simp)
      · rw [if_neg hz] at hw
        rcases runLoop_writes_mem cfg elapsedAt prices dateStr _ _ _ _ w hw with
          h1 | ⟨it, hit, hweq⟩
        · exact absurd h1 (by simp)
        · subst hweq
          refine ⟨rfl, rfl, rfl, ?_, ⟨it, hit, process_single_item_row prices it⟩, ?_⟩
          · intro v hv
            simp only [writeFor, List.mem_singleton] at hv
            subst hv
            rfl
          · intro hc
            exact absurd (hc.1) (by simp [writeFor])
  · intro row cell hcell
    simp only [update_spreadsheet_cells, List.mem_cons, List.mem_singleton,
      List.not_mem_nil] at hcell
    rcases hcell with h | h | h | h
    all_goals try (subst h; exact ⟨rfl, by omega, by omega, by omega⟩)
    exact absurd h (by simp)

/-- Witness for C8 at a concrete write of the interrupted-run fixture. -/
theorem ledger_writes_fixed_result_range_witness :
    (writeFor "d" (process_single_item pricesNone ⟨2, "1234567890"⟩)
        ∈ (run_update defaultConfig savedK1 dataTwo none elapsedZero pricesNone
            "d").writes) ∧
    ((writeFor "d" (process_single_item pricesNone ⟨2, "1234567890"⟩)).colStart = 3 ∧
      (writeFor "d" (process_single_item pricesNone ⟨2, "1234567890"⟩)).colEnd = 5 ∧
      (writeFor "d" (process_single_item pricesNone ⟨2, "1234567890"⟩)).values.length = 1 ∧
      (∀ v ∈ (writeFor "d" (process_single_item pricesNone ⟨2, "1234567890"⟩)).values,
        v.length = 3) ∧
      (∃ it ∈ applyMaxItems none (validItems dataTwo),
        (writeFor "d" (process_single_item pricesNone ⟨2, "1234567890"⟩)).row
          = it.row_index) ∧
      ¬ ((writeFor "d" (process_single_item pricesNone ⟨2, "1234567890"⟩)).colStart ≤ 2 ∧
        2 ≤ (writeFor "d" (process_single_item pricesNone ⟨2, "1234567890"⟩)).colEnd)) ∧
    (∀ (row : Nat) (cell : Nat × Nat), cell ∈ update_spreadsheet_cells row →
      cell.1 = row ∧ 3 ≤ cell.2 ∧ cell.2 ≤ 5 ∧ cell.2 ≠ 2) :=
  ⟨by decide,
   (ledger_writes_fixed_result_range defaultConfig savedK1 dataTwo none elapsedZero
      pricesNone "d" _ (by decide)).1,
   (ledger_writes_fixed_result_range defaultConfig savedK1 dataTwo none elapsedZero
      pricesNone "d" (writeFor "d" (process_single_item pricesNone
        ⟨2, "1234567890"⟩)) (by decide)).2⟩

/-- Claim C10: after every processed item, and in the final status report,
`processed_count = success_count + error_count` — each item increments the
processed counter and exactly one of the success or error counters. -/
theorem status_counters_consistent (cfg : Config) (saved : Progress)
    (data : List (List String)) (maxItems : Option Nat) (elapsedAt : Nat → Nat)
    (prices : String → Option Nat) (dateStr : String) :
    (∀ p ∈ (run_update cfg saved data maxItems elapsedAt prices dateStr).trace,
        (get_status p).processed_count
          = (get_status p).success_count + (get_status p).error_count) ∧
    (get_status (run_update cfg saved data maxItems elapsedAt prices
        dateStr).final).processed_count
      = (get_status (run_update cfg saved data maxItems elapsedAt prices
          dateStr).final).success_count
        + (get_status (run_update cfg saved data maxItems elapsedAt prices
            dateStr).final).error_count := by
  simp only [run_update]
  by_cases hd : data.length < 2
  · rw [if_pos hd]
    exact ⟨by simp, rfl⟩
  · rw [if_neg hd]
    by_cases hz : (applyMaxItems maxItems (validItems data)).length = 0
    · rw [if_pos hz]
      exact ⟨by simp, rfl⟩
    · rw [if_neg hz]
      obtain ⟨t1, t2⟩ := runLoop_trace_inv cfg elapsedAt prices dateStr
        (applyMaxItems maxItems (validItems data))
        ((applyMaxItems maxItems (validItems data)).length + 1) 0
        ⟨{ { saved with
              current_index := 0,
              processed_count := 0,
              success_count := 0,
              error_count := 0,
              is_running := true } with
            total_count := (applyMaxItems maxItems (validItems data)).length },
          [], [], []⟩
        (by simp) rfl
      exact ⟨t1, t2⟩

/-- Witness for C10 at the one-item no-price fixture. -/
theorem status_counters_consistent_witness :
    (∀ p ∈ (run_update defaultConfig defaultProgress dataOne none elapsedZero
        pricesNoData "d").trace,
        (get_status p).processed_count
          = (get_status p).success_count + (get_status p).error_count) ∧
    (get_status (run_update defaultConfig defaultProgress dataOne none elapsedZero
        pricesNoData "d").final).processed_count
      = (get_status (run_update defaultConfig defaultProgress dataOne none
          elapsedZero pricesNoData "d").final).success_count
        + (get_status (run_update defaultConfig defaultProgress dataOne none
            elapsedZero pricesNoData "d").final).error_count :=
  status_counters_consistent defaultConfig defaultProgress dataOne none elapsedZero
    pricesNoData "d"

/-- Claim C6, counterexample: `MobileIchibanScraper.parse_price` maps the
price text 0円 to 0, `extract_product_info` embeds that 0 as a found
product price without any positivity check, and the row update of
`update_spreadsheet_with_jan_codes` writes that first product's price —
zero — into the price column. -/
theorem zero_price_extracted_and_written :
    parse_price "0円" = 0 ∧
    extract_product_info "4900000000000" none "0円" none = some zeroYenProduct ∧
    writtenPriceCell [zeroYenProduct] = some 0 ∧
    ¬ 0 < zeroYenProduct.price := by
  decide

/-- Claim C6, amended: the keyword-anchored extractor of
`MorimoriPCSystem` indeed never returns a price at or below zero, but the
`MobileIchibanScraper` pipeline has no such guard: `parse_price` returns
0 for a zero-valued price text and the ledger write uses the first
product's price unconditionally, so 0 reaches the price column. -/
theorem extraction_positivity_contrast :
    (∀ (html : String) (p : Nat), parse_search_results html = some p → 0 < p) ∧
    parse_price "0円" = 0 ∧
    extract_product_info "4900000000000" none "0円" none = some zeroYenProduct ∧
    writtenPriceCell [zeroYenProduct] = some 0 :=
  ⟨parse_search_results_pos, by decide, by decide, by decide⟩

/-- Witness for C6 instantiating the positivity conjunct on a page the
third pattern matches. -/
theorem extraction_positivity_contrast_witness :
    parse_search_results "買取価格：5円" = some 5 ∧ 0 < 5 :=
  ⟨by decide, extraction_positivity_contrast.1 "買取価格：5円" 5 (by decide)⟩

end SedoriAuto
